import Mathlib

/-!
# Verification of the moving-average crossover trading engine

Shallow embedding of `src/index.ts`: the signal buffer, the SMA computation,
the TP/SL request construction, the connection manager's session/timer
lifecycle, the position-feed message handler, and the strategy tick.

Prices are modelled as exact rationals (the source uses JS numbers; the
`toFixed(2)` wire formatting of trigger prices is not modelled, the exact
price is kept).
-/

namespace MakeMeRich

/-- Source configuration `SHORT_MA_PERIOD = 50`. -/
def SHORT_MA_PERIOD : ℕ := 50

/-- Source configuration `LONG_MA_PERIOD = 200`. -/
def LONG_MA_PERIOD : ℕ := 200

/-- Source configuration `TP_PCT = 0.005`. -/
def TP_PCT : ℚ := 5 / 1000

/-- Source configuration `SL_PCT = -0.003` (note: already negative). -/
def SL_PCT : ℚ := -3 / 1000

/-- Source configuration `MIN_CHANGE_PCT = 0.002`. -/
def MIN_CHANGE_PCT : ℚ := 2 / 1000

/-- Source configuration `TAKER_FEE = 0.0006`. -/
def TAKER_FEE : ℚ := 6 / 10000

/-- Source configuration `LEVERAGE = 10`. -/
def LEVERAGE : ℚ := 10

/-- A hold side, the values of `currentPosition` other than `null`
(`'long' | 'short'`). -/
inductive Side where
  | long
  | short
deriving DecidableEq, Repr

/-- An order side passed to `placeOrder`
(`'open_long' | 'open_short' | 'close_long' | 'close_short'`). -/
inductive OrderSide where
  | open_long
  | open_short
  | close_long
  | close_short
deriving DecidableEq, Repr

/-- The `triggerDirection` field of a TP/SL plan request (`'rise' | 'fall'`). -/
inductive TriggerDir where
  | rise
  | fall
deriving DecidableEq, Repr

/-- The body of one HTTP request to `/api/mix/v1/plan/placeTPSL`
(the fields the engine computes; constant fields elided). -/
structure TPSLRequest where
  triggerPrice : ℚ
  side : OrderSide
  triggerDirection : TriggerDir
  holdSide : Side
deriving DecidableEq, Repr

/-- Embedding of `setTP_SL` (src/index.ts:133-160): computes `tpPrice` and
`slPrice` and returns the list of plan-order HTTP requests the function posts.
The source makes exactly one `axios.post`, whose `triggerPrice` is `tpPrice`;
`slPrice` is computed but never used. -/
def setTP_SL (holdSide : Side) (entryPrice : ℚ) : List TPSLRequest :=
  let tpPrice := entryPrice * (1 + (if holdSide = Side.long then TP_PCT else -TP_PCT))
  let _slPrice := entryPrice * (1 + (if holdSide = Side.long then SL_PCT else -SL_PCT))
  [{ triggerPrice := tpPrice
     side := if holdSide = Side.long then OrderSide.close_long else OrderSide.close_short
     triggerDirection := if holdSide = Side.long then TriggerDir.rise else TriggerDir.fall
     holdSide := holdSide }]

/-- The stop-loss price `setTP_SL` computes into its (unused) `slPrice`
local (src/index.ts:140). -/
def slPriceOf (holdSide : Side) (entryPrice : ℚ) : ℚ :=
  entryPrice * (1 + (if holdSide = Side.long then SL_PCT else -SL_PCT))

/-- JS `arr.slice(-p)`: for `p = 0` this is `arr.slice(0)` (the whole array),
for `p > 0` the last `min p (length)` elements. -/
def sliceLast (l : List ℚ) (p : ℕ) : List ℚ :=
  if p = 0 then l else l.drop (l.length - p)

/-- Embedding of `calculateSMA` (src/index.ts:83-87): `0` when fewer than
`period` entries exist, otherwise `sum(slice(-period)) / period`. -/
def calculateSMA (prices : List ℚ) (period : ℕ) : ℚ :=
  if prices.length < period then 0
  else (sliceLast prices period).sum / (period : ℚ)

/-- Embedding of the candle handler's buffer update (src/index.ts:220-221):
`prices.push(newClose); if (prices.length > LONG_MA_PERIOD) prices.shift()`.
Polymorphic because the source pushes whatever `parseFloat` returned, with no
finiteness check. -/
def recordClose {α : Type} (l : List α) (v : α) : List α :=
  let pushed := l ++ [v]
  if LONG_MA_PERIOD < pushed.length then pushed.drop 1 else pushed

/-- The buffer obtained by replaying a sequence of `recordClose` calls from an
empty buffer. -/
def bufferOf (vs : List ℚ) : List ℚ :=
  vs.foldl recordClose []

/-- A JS number as seen by the candle handler: either a finite value or the
non-finite result of a failed `parseFloat` (NaN). -/
inductive JSNum where
  | finite (q : ℚ)
  | nan
deriving DecidableEq, Repr

/-- Whether a `JSNum` is finite. -/
def JSNum.isFinite : JSNum → Bool
  | .finite _ => true
  | .nan => false

/-- JS `Math.abs`. -/
def mathAbs (q : ℚ) : ℚ :=
  if q < 0 then -q else q

/-- The `priceChange` the strategy tick computes (src/index.ts:279-280):
`(currentPrice - prices[prices.length - 2]) / prices[prices.length - 2]`.
Note the numerator is `currentPrice` (the live ticker price), not the
buffer's last entry. -/
def priceChangeOf (prices : List ℚ) (currentPrice : ℚ) : ℚ :=
  (currentPrice - prices.getD (prices.length - 2) 0) / prices.getD (prices.length - 2) 0

/-- Modelled from the spec: `priceDelta()` of the SignalBuffer,
`(latest - secondToLast) / secondToLast` over the buffer's own entries — used
only to compare against the code's `priceChangeOf`. -/
def specPriceDelta (l : List ℚ) : ℚ :=
  (l.getD (l.length - 1) 0 - l.getD (l.length - 2) 0) / l.getD (l.length - 2) 0

/-- A signed REST request issued by the tick through the order gateway:
either a `placeOrder` call or a TP/SL plan request posted by `setTP_SL`. -/
inductive GatewayCall where
  | order (side : OrderSide)
  | tpsl (req : TPSLRequest)
deriving DecidableEq, Repr

/-- The observable outcome of one strategy tick: the `currentPosition` after
the tick, the gateway calls issued in order, whether the tick's `catch` block
ran, and the `priceChange` the tick computed (`none` when the fullness guard
skipped the tick). -/
structure TickResult where
  position : Option Side
  calls : List GatewayCall
  caught : Bool
  priceChange? : Option ℚ
deriving DecidableEq, Repr

/-- The long branch of the tick (src/index.ts:284-290): close-short when
currently short, then open-long, then `setTP_SL('long', currentPrice)`, then
set the provisional position to long. `fails s` injects a thrown error into
the `placeOrder` call with side `s`; a failing call aborts the sequence
(control jumps to the tick's `catch`). `setTP_SL` catches its own errors and
never throws into the tick. Returns (position, calls, caught). -/
def goLong (fails : OrderSide → Bool) (pos : Option Side) (currentPrice : ℚ) :
    Option Side × List GatewayCall × Bool :=
  if pos = some Side.short then
    if fails OrderSide.close_short then
      (pos, [GatewayCall.order OrderSide.close_short], true)
    else if fails OrderSide.open_long then
      (pos, [GatewayCall.order OrderSide.close_short,
             GatewayCall.order OrderSide.open_long], true)
    else
      (some Side.long,
       GatewayCall.order OrderSide.close_short ::
         GatewayCall.order OrderSide.open_long ::
           (setTP_SL Side.long currentPrice).map GatewayCall.tpsl,
       false)
  else
    if fails OrderSide.open_long then
      (pos, [GatewayCall.order OrderSide.open_long], true)
    else
      (some Side.long,
       GatewayCall.order OrderSide.open_long ::
         (setTP_SL Side.long currentPrice).map GatewayCall.tpsl,
       false)

/-- The short branch of the tick (src/index.ts:291-297), symmetric to
`goLong`. -/
def goShort (fails : OrderSide → Bool) (pos : Option Side) (currentPrice : ℚ) :
    Option Side × List GatewayCall × Bool :=
  if pos = some Side.long then
    if fails OrderSide.close_long then
      (pos, [GatewayCall.order OrderSide.close_long], true)
    else if fails OrderSide.open_short then
      (pos, [GatewayCall.order OrderSide.close_long,
             GatewayCall.order OrderSide.open_short], true)
    else
      (some Side.short,
       GatewayCall.order OrderSide.close_long ::
         GatewayCall.order OrderSide.open_short ::
           (setTP_SL Side.short currentPrice).map GatewayCall.tpsl,
       false)
  else
    if fails OrderSide.open_short then
      (pos, [GatewayCall.order OrderSide.open_short], true)
    else
      (some Side.short,
       GatewayCall.order OrderSide.open_short ::
         (setTP_SL Side.short currentPrice).map GatewayCall.tpsl,
       false)

/-- Embedding of one strategy tick (src/index.ts:274-310). Guards: skip when
`prices.length < LONG_MA_PERIOD || currentPrice === 0`; compute the MAs and
`priceChange`; act only when `Math.abs(priceChange) >= MIN_CHANGE_PCT`. The
decision is the source's if/else-if on `shortMA > longMA` (resp. `<`) and the
current position. -/
def tick (fails : OrderSide → Bool) (prices : List ℚ) (currentPrice : ℚ)
    (pos : Option Side) : TickResult :=
  if prices.length < LONG_MA_PERIOD ∨ currentPrice = 0 then
    { position := pos, calls := [], caught := false, priceChange? := none }
  else
    let shortMA := calculateSMA prices SHORT_MA_PERIOD
    let longMA := calculateSMA prices LONG_MA_PERIOD
    let priceChange := priceChangeOf prices currentPrice
    if MIN_CHANGE_PCT ≤ mathAbs priceChange then
      let r :=
        if shortMA > longMA ∧ pos ≠ some Side.long then
          goLong fails pos currentPrice
        else if shortMA < longMA ∧ pos ≠ some Side.short then
          goShort fails pos currentPrice
        else
          (pos, [], false)
      { position := r.1, calls := r.2.1, caught := r.2.2, priceChange? := some priceChange }
    else
      { position := pos, calls := [], caught := false, priceChange? := some priceChange }

/-- A position record inside a `positions` channel message: its optional
`holdSide` field. -/
structure PosRecord where
  holdSide : Option Side
deriving DecidableEq, Repr

/-- A decoded message on the private channel: a login confirmation, a
`positions` channel update carrying `msg.data`, or anything else. -/
inductive PrivateMsg where
  | login
  | positions (data : List PosRecord)
  | other
deriving DecidableEq

/-- Embedding of the private-channel message handler (src/index.ts:245-253):
on a `positions` message, `currentPosition = msg.data[0]?.holdSide || null`;
other messages leave the position unchanged. -/
def handlePrivateMsg (msg : PrivateMsg) (pos : Option Side) : Option Side :=
  match msg with
  | .positions data =>
      match data.head? with
      | some r => r.holdSide
      | none => none
  | _ => pos

/-- The state of one logical channel driven by `connectWS`
(src/index.ts:163-195): `created` counts the sockets constructed so far (ids
`0..created-1`); `openIds` are sockets whose `open` event fired and whose
`close` has not; `timers` are the socket ids whose keep-alive `setInterval`
is active (the source never calls `clearInterval`, so `step` never removes
from this list); `pending` counts scheduled reconnect timeouts. -/
structure CMState where
  created : ℕ
  openIds : List ℕ
  timers : List ℕ
  pending : ℕ
deriving DecidableEq, Repr

/-- An event delivered to the channel: a socket's `open` event, a socket's
`close` event, or a scheduled reconnect timeout firing. -/
inductive CMEvent where
  | wsOpen (id : ℕ)
  | wsClose (id : ℕ)
  | reconnectFire
deriving DecidableEq, Repr

/-- One event step of `connectWS`'s handlers. On `open` (src/index.ts:171-175)
the handler runs `onOpen` and starts a keep-alive `setInterval`; on `close`
(src/index.ts:187-190) it schedules `connectWS` again after the fixed delay;
the reconnect timeout constructs a fresh socket. No handler ever clears an
interval: the source contains no `clearInterval`. Events that cannot occur
(open of an unknown or already-open socket, close of a non-open socket, a
timeout with none pending) leave the state unchanged. -/
def step (s : CMState) : CMEvent → CMState
  | .wsOpen id =>
      if id < s.created ∧ id ∉ s.openIds ∧ id ∉ s.timers then
        { s with openIds := id :: s.openIds, timers := id :: s.timers }
      else s
  | .wsClose id =>
      if id ∈ s.openIds then
        { s with openIds := s.openIds.erase id, pending := s.pending + 1 }
      else s
  | .reconnectFire =>
      if 0 < s.pending then
        { s with pending := s.pending - 1, created := s.created + 1 }
      else s

/-- Replay a sequence of channel events from the state right after the
initial `connectWS` call (one socket created, nothing open yet). -/
def runCM (events : List CMEvent) : CMState :=
  events.foldl step { created := 1, openIds := [], timers := [], pending := 0 }

/-- Which gateway calls fail under a failure oracle `fails` for `placeOrder`:
`setTP_SL` catches its own errors, so a TP/SL request never throws into the
tick. -/
def callFails (fails : OrderSide → Bool) : GatewayCall → Bool
  | .order s => fails s
  | .tpsl _ => false

set_option maxRecDepth 100000

/-- C1: the claim says the TP/SL placement operation places two exchange-side
trigger orders, a target at `e * (1 + sign*TP_PCT)` and a stop at
`e * (1 + sign*SL_PCT)`. The code computes both prices but posts exactly one
plan order, whose trigger is the take-profit price; the stop-loss price (here
`slPriceOf`, the source's unused `slPrice` local) appears in no request. At
`holdSide = long`, `entryPrice = 100`: one request at `100.5`, none at
`99.7`. -/
theorem C1_only_tp_order_placed :
    (setTP_SL Side.long 100).length = 1 ∧
    (setTP_SL Side.long 100).map TPSLRequest.triggerPrice = [100 * (1 + TP_PCT)] ∧
    slPriceOf Side.long 100 = 100 * (1 + SL_PCT) ∧
    (100 * (1 + SL_PCT)) ∉ (setTP_SL Side.long 100).map TPSLRequest.triggerPrice := by
  refine ⟨rfl, by with_unfolding_all rfl, by with_unfolding_all rfl, ?_⟩
  with_unfolding_all decide

/-- C2: the claim says each logical channel has at most one active keep-alive
timer, the old session's timer being cancelled before a new session's timer
starts. The source never clears the keep-alive interval: after the execution
open(0), close(0), reconnect, open(1), the channel has the two timers `0` and
`1` active while only socket `1` is open — the closed session's timer is
still active. -/
theorem C2_two_keepalive_timers_after_reconnect :
    (runCM [CMEvent.wsOpen 0, CMEvent.wsClose 0, CMEvent.reconnectFire,
            CMEvent.wsOpen 1]).timers = [1, 0] ∧
    (runCM [CMEvent.wsOpen 0, CMEvent.wsClose 0, CMEvent.reconnectFire,
            CMEvent.wsOpen 1]).openIds = [1] := by
  with_unfolding_all decide

/-- C6 counterexample: the claim quantifies over every period `p` and asserts
`movingAverage(p) = v` for a constant buffer of value `v` once at least `p`
samples exist. At `p = 0` with buffer `[5]` (a constant sequence of value `5`
with `1 ≥ 0` samples), `calculateSMA` takes the mean branch and divides by
zero instead of returning `5` (the source yields `Infinity`; in this exact
embedding division by zero yields `0`) — in either semantics the result is
not `5`. -/
theorem C6_counterexample_period_zero : calculateSMA [5] 0 ≠ 5 := by
  with_unfolding_all decide

/-- C6 amended: for every buffer and period `p ≥ 1`, `calculateSMA` returns
`0` when fewer than `p` samples exist and the arithmetic mean of the last `p`
samples otherwise; for a constant buffer of value `v` it returns `v` once at
least `p` samples are recorded. (The claim's quantification over `p = 0` is
dropped: there the code divides by zero.) -/
theorem C6_sma_mean_of_last_period :
    (∀ (l : List ℚ) (p : ℕ), l.length < p → calculateSMA l p = 0) ∧
    (∀ (l : List ℚ) (p : ℕ), 1 ≤ p → p ≤ l.length →
      calculateSMA l p = (l.drop (l.length - p)).sum / p) ∧
    (∀ (v : ℚ) (p n : ℕ), 1 ≤ p → p ≤ n →
      calculateSMA (List.replicate n v) p = v) := by
  refine ⟨fun l p h => by simp [calculateSMA, h], ?_, ?_⟩
  · intro l p hp hlen
    rw [calculateSMA, if_neg (not_lt.2 hlen), sliceLast, if_neg (by omega)]
  · intro v p n hp hpn
    rw [calculateSMA, if_neg (by simp; omega), sliceLast, if_neg (by omega)]
    rw [List.drop_replicate, List.length_replicate,
      show n - (n - p) = p by omega, List.sum_replicate, nsmul_eq_mul]
    exact mul_div_cancel_left₀ v (Nat.cast_ne_zero.2 (by omega))

/-- Witness for C6 amended: concrete instances of the three parts at periods
3, 2 and 2. -/
theorem C6_sma_mean_of_last_period_witness :
    (([1, 2] : List ℚ).length < 3 ∧ calculateSMA [1, 2] 3 = 0) ∧
    (1 ≤ 2 ∧ 2 ≤ ([1, 2, 3] : List ℚ).length ∧
      calculateSMA [1, 2, 3] 2 =
        (([1, 2, 3] : List ℚ).drop (([1, 2, 3] : List ℚ).length - 2)).sum / 2) ∧
    (1 ≤ 2 ∧ 2 ≤ 3 ∧ calculateSMA (List.replicate 3 (7 : ℚ)) 2 = 7) :=
  ⟨⟨by decide, C6_sma_mean_of_last_period.1 [1, 2] 3 (by decide)⟩,
   ⟨by decide, by decide,
    C6_sma_mean_of_last_period.2.1 [1, 2, 3] 2 (by decide) (by decide)⟩,
   ⟨by decide, by decide,
    C6_sma_mean_of_last_period.2.2 7 2 3 (by decide) (by decide)⟩⟩

/-- C7: on every `positions` message the extracted `holdSide` (absent mapped
to `none`) overwrites the position regardless of its prior value: the handler
result does not depend on the previous position, it equals the head record's
`holdSide` (or `none` when `data` is empty), and in particular a message with
`holdSide` absent received while the provisional state was `long` leaves the
state `none`. -/
theorem C7_position_feed_overwrites :
    (∀ (data : List PosRecord) (p q : Option Side),
      handlePrivateMsg (PrivateMsg.positions data) p =
        handlePrivateMsg (PrivateMsg.positions data) q) ∧
    (∀ (r : PosRecord) (data : List PosRecord) (p : Option Side),
      handlePrivateMsg (PrivateMsg.positions (r :: data)) p = r.holdSide) ∧
    (∀ (p : Option Side), handlePrivateMsg (PrivateMsg.positions []) p = none) ∧
    handlePrivateMsg (PrivateMsg.positions [{ holdSide := none }])
      (some Side.long) = none := by
  refine ⟨fun data p q => rfl, fun r data p => rfl, fun p => rfl, rfl⟩

/-- C9 counterexample: the claim says a non-finite price is rejected rather
than appended. The candle handler pushes whatever `parseFloat` returned with
no finiteness check: recording NaN into an empty buffer appends it. -/
theorem C9_counterexample_nan_appended :
    recordClose ([] : List JSNum) JSNum.nan = [JSNum.nan] ∧
    JSNum.nan.isFinite = false := by
  with_unfolding_all decide

/-- C9 amended: `recordClose` appends every input unconditionally — a
non-finite value is appended, not rejected — and in all cases the length
invariant (length ≤ LONG_MA_PERIOD) is preserved. -/
theorem C9_no_guard_but_length_invariant (l : List JSNum) (v : JSNum)
    (h : l.length ≤ LONG_MA_PERIOD) :
    (recordClose l v).length ≤ LONG_MA_PERIOD ∧
    (recordClose l v).getLast? = some v := by
  simp only [recordClose]
  by_cases hc : LONG_MA_PERIOD < (l ++ [v]).length
  · rw [if_pos hc]
    refine ⟨?_, ?_⟩
    · simp only [List.length_drop, List.length_append, List.length_singleton]
      omega
    · have hl : 1 ≤ l.length := by
        simp only [List.length_append, List.length_singleton, LONG_MA_PERIOD] at hc
        omega
      rw [List.drop_append_of_le_length hl]
      exact List.getLast?_concat _
  · rw [if_neg hc]
    simp only [List.length_append, List.length_singleton] at hc ⊢
    exact ⟨by omega, List.getLast?_concat _⟩

/-- Witness for C9 amended: recording NaN into an empty buffer. -/
theorem C9_no_guard_but_length_invariant_witness :
    ([] : List JSNum).length ≤ LONG_MA_PERIOD ∧
    ((recordClose ([] : List JSNum) JSNum.nan).length ≤ LONG_MA_PERIOD ∧
      (recordClose ([] : List JSNum) JSNum.nan).getLast? = some JSNum.nan) :=
  ⟨by decide, C9_no_guard_but_length_invariant [] JSNum.nan (by decide)⟩

/-- One `recordClose` step preserves the FIFO-suffix representation of the
buffer: pushing `v` onto the evicted suffix of `ws` yields the evicted suffix
of `ws ++ [v]`. -/
theorem recordClose_drop_suffix (ws : List ℚ) (v : ℚ) :
    recordClose (ws.drop (ws.length - LONG_MA_PERIOD)) v =
      (ws ++ [v]).drop ((ws ++ [v]).length - LONG_MA_PERIOD) := by
  have hL : LONG_MA_PERIOD = 200 := rfl
  simp only [recordClose, List.length_append, List.length_drop,
    List.length_singleton, hL]
  by_cases h : ws.length ≤ 200
  · rw [Nat.sub_eq_zero_of_le h, List.drop_zero]
    by_cases hc : 200 < ws.length + 1
    · rw [if_pos (by omega), show ws.length + 1 - 200 = 1 by omega]
    · rw [if_neg (by omega), show ws.length + 1 - 200 = 0 by omega,
        List.drop_zero]
  · rw [if_pos (by omega)]
    rw [List.drop_append_of_le_length
      (show (1 : ℕ) ≤ (List.drop (ws.length - 200) ws).length by
        rw [List.length_drop]; omega)]
    rw [List.drop_drop,
      List.drop_append_of_le_length (by omega : ws.length + 1 - 200 ≤ ws.length),
      show ws.length - 200 + 1 = ws.length + 1 - 200 by omega]

/-- Replaying any `recordClose` sequence from the empty buffer leaves exactly
the FIFO-evicted suffix of the recorded values. -/
theorem bufferOf_eq_drop (vs : List ℚ) :
    bufferOf vs = vs.drop (vs.length - LONG_MA_PERIOD) := by
  induction vs using List.reverseRecOn with
  | nil => rfl
  | append_singleton ws v ih =>
      rw [bufferOf, List.foldl_append, List.foldl_cons, List.foldl_nil,
        ← bufferOf, ih, recordClose_drop_suffix]

/-- C5: for all sequences of `recordClose` calls starting from an empty
buffer, the buffer length never exceeds `LONG_MA_PERIOD`, and the contents
are exactly the FIFO-evicted suffix of the recorded values: the last
`min(n, LONG_MA_PERIOD)` values in order, i.e. `vs.drop (n - LONG_MA_PERIOD)`. -/
theorem C5_buffer_fifo_suffix (vs : List ℚ) :
    (bufferOf vs).length ≤ LONG_MA_PERIOD ∧
    bufferOf vs = vs.drop (vs.length - LONG_MA_PERIOD) := by
  refine ⟨?_, bufferOf_eq_drop vs⟩
  rw [bufferOf_eq_drop vs, List.length_drop]
  omega

/-- C3 counterexample: the claim says the tick's `priceChangePct` equals the
buffer's own `priceDelta` (last recorded close minus second-to-last, over
second-to-last). With a buffer of 200 closes all equal to `100` and a live
ticker price of `101`, the buffer's delta is `0` but the tick computes
`(101 - 100) / 100 = 1/100` — the numerator is the ticker price, not the last
recorded close. -/
theorem C3_counterexample_uses_ticker_price :
    (tick (fun _ => false) (List.replicate 200 (100 : ℚ)) 101 none).priceChange? =
      some (1 / 100) ∧
    specPriceDelta (List.replicate 200 (100 : ℚ)) = 0 ∧
    (1 / 100 : ℚ) ≠ 0 :=
  ⟨by with_unfolding_all rfl, by with_unfolding_all rfl, by norm_num⟩

/-- C3 amended: on every tick passing the fullness guard, the
`priceChangePct` used by the decision logic is
`(LatestPrice - secondToLast) / secondToLast` where `secondToLast` is the
buffer's second-to-last recorded close — the numerator is the live ticker
price, not the last recorded close; when `secondToLast` is nonzero it
coincides with the buffer's own `priceDelta` if and only if the last
recorded close equals the live ticker price. (With `secondToLast = 0` both
quotients degenerate and the equivalence does not hold, so the biconditional
is stated under the nonzero divisor.) -/
theorem C3_price_change_from_ticker (fails : OrderSide → Bool) (prices : List ℚ)
    (currentPrice : ℚ) (pos : Option Side)
    (h1 : ¬(prices.length < LONG_MA_PERIOD ∨ currentPrice = 0)) :
    (tick fails prices currentPrice pos).priceChange? =
      some ((currentPrice - prices.getD (prices.length - 2) 0) /
        prices.getD (prices.length - 2) 0) ∧
    (prices.getD (prices.length - 2) 0 ≠ 0 →
      (priceChangeOf prices currentPrice = specPriceDelta prices ↔
        prices.getD (prices.length - 1) 0 = currentPrice)) := by
  constructor
  · simp only [tick, if_neg h1]
    split <;> rfl
  · intro hs
    constructor
    · intro he
      rw [priceChangeOf, specPriceDelta, div_eq_div_iff hs hs] at he
      have h3 := mul_right_cancel₀ hs he
      have h4 : currentPrice = prices.getD (prices.length - 1) 0 := by
        linarith
      exact h4.symm
    · intro h2
      rw [priceChangeOf, specPriceDelta, h2]

/-- Witness for C3 amended: a buffer of 199 closes at `100` then one at
`101`, with the ticker price also `101`. -/
theorem C3_price_change_from_ticker_witness :
    (¬((List.replicate 199 (100 : ℚ) ++ [101]).length < LONG_MA_PERIOD ∨
        (101 : ℚ) = 0)) ∧
    ((tick (fun _ => false) (List.replicate 199 (100 : ℚ) ++ [101]) 101
        none).priceChange? =
      some ((101 - (List.replicate 199 (100 : ℚ) ++ [101]).getD
          ((List.replicate 199 (100 : ℚ) ++ [101]).length - 2) 0) /
        (List.replicate 199 (100 : ℚ) ++ [101]).getD
          ((List.replicate 199 (100 : ℚ) ++ [101]).length - 2) 0) ∧
    ((List.replicate 199 (100 : ℚ) ++ [101]).getD
        ((List.replicate 199 (100 : ℚ) ++ [101]).length - 2) 0 ≠ 0 →
      (priceChangeOf (List.replicate 199 (100 : ℚ) ++ [101]) 101 =
          specPriceDelta (List.replicate 199 (100 : ℚ) ++ [101]) ↔
        (List.replicate 199 (100 : ℚ) ++ [101]).getD
          ((List.replicate 199 (100 : ℚ) ++ [101]).length - 1) 0 = 101))) :=
  ⟨by with_unfolding_all decide,
   C3_price_change_from_ticker (fun _ => false) _ 101 none
     (by with_unfolding_all decide)⟩

/-- C4: on a tick where the fullness and volatility guards pass,
`shortMA > longMA`, no `placeOrder` call fails, and the current position is
short, the tick issues exactly close-short, then open-long, then the TP/SL
placement anchored at the live price, in that order (the `calls` list is the
issue order; each call is awaited before the next in the source), and sets
the provisional position to long. -/
theorem C4_cross_up_from_short (prices : List ℚ) (currentPrice : ℚ)
    (h1 : ¬(prices.length < LONG_MA_PERIOD ∨ currentPrice = 0))
    (h2 : MIN_CHANGE_PCT ≤ mathAbs (priceChangeOf prices currentPrice))
    (h3 : calculateSMA prices SHORT_MA_PERIOD > calculateSMA prices LONG_MA_PERIOD) :
    tick (fun _ => false) prices currentPrice (some Side.short) =
      { position := some Side.long
        calls := GatewayCall.order OrderSide.close_short ::
          GatewayCall.order OrderSide.open_long ::
            (setTP_SL Side.long currentPrice).map GatewayCall.tpsl
        caught := false
        priceChange? := some (priceChangeOf prices currentPrice) } := by
  simp only [tick, if_neg h1, if_pos h2]
  rw [if_pos ⟨h3, by simp⟩]
  simp [goLong]

/-- Witness for C4: 199 closes at `100` then one at `120` (short MA `100.4`
above long MA `100.1`), ticker price `101`, current position short. -/
theorem C4_cross_up_from_short_witness :
    (¬((List.replicate 199 (100 : ℚ) ++ [120]).length < LONG_MA_PERIOD ∨
        (101 : ℚ) = 0)) ∧
    MIN_CHANGE_PCT ≤ mathAbs (priceChangeOf (List.replicate 199 (100 : ℚ) ++ [120]) 101) ∧
    calculateSMA (List.replicate 199 (100 : ℚ) ++ [120]) SHORT_MA_PERIOD >
      calculateSMA (List.replicate 199 (100 : ℚ) ++ [120]) LONG_MA_PERIOD ∧
    tick (fun _ => false) (List.replicate 199 (100 : ℚ) ++ [120]) 101
        (some Side.short) =
      { position := some Side.long
        calls := GatewayCall.order OrderSide.close_short ::
          GatewayCall.order OrderSide.open_long ::
            (setTP_SL Side.long 101).map GatewayCall.tpsl
        caught := false
        priceChange? :=
          some (priceChangeOf (List.replicate 199 (100 : ℚ) ++ [120]) 101) } :=
  ⟨by with_unfolding_all decide, by with_unfolding_all decide,
   by with_unfolding_all decide,
   C4_cross_up_from_short _ 101 (by with_unfolding_all decide)
     (by with_unfolding_all decide) (by with_unfolding_all decide)⟩

/-- C8: on a tick passing the fullness guard in which
`|priceChange| < MIN_CHANGE_PCT`, no gateway call is made regardless of the
MA relationship or failure oracle, the position is unchanged, and the catch
block does not run. -/
theorem C8_volatility_filter_blocks (fails : OrderSide → Bool) (prices : List ℚ)
    (currentPrice : ℚ) (pos : Option Side)
    (h1 : ¬(prices.length < LONG_MA_PERIOD ∨ currentPrice = 0))
    (h2 : mathAbs (priceChangeOf prices currentPrice) < MIN_CHANGE_PCT) :
    (tick fails prices currentPrice pos).calls = [] ∧
    (tick fails prices currentPrice pos).position = pos ∧
    (tick fails prices currentPrice pos).caught = false := by
  simp [tick, if_neg h1, if_neg (not_le.2 h2)]

/-- Witness for C8: a flat buffer of 200 closes at `100` with the ticker
also at `100` (price change `0`), every order set to fail, position long. -/
theorem C8_volatility_filter_blocks_witness :
    (¬((List.replicate 200 (100 : ℚ)).length < LONG_MA_PERIOD ∨ (100 : ℚ) = 0)) ∧
    mathAbs (priceChangeOf (List.replicate 200 (100 : ℚ)) 100) < MIN_CHANGE_PCT ∧
    ((tick (fun _ => true) (List.replicate 200 (100 : ℚ)) 100
        (some Side.long)).calls = [] ∧
      (tick (fun _ => true) (List.replicate 200 (100 : ℚ)) 100
        (some Side.long)).position = some Side.long ∧
      (tick (fun _ => true) (List.replicate 200 (100 : ℚ)) 100
        (some Side.long)).caught = false) :=
  ⟨by with_unfolding_all decide, by with_unfolding_all decide,
   C8_volatility_filter_blocks (fun _ => true) _ 100 (some Side.long)
     (by with_unfolding_all decide) (by with_unfolding_all decide)⟩

/-- If some call issued by the long branch fails, the branch aborts at the
failing `placeOrder`: the catch flag is set, the position is unchanged, and
the failing call is the last one issued. -/
theorem goLong_fail (fails : OrderSide → Bool) (pos : Option Side) (cp : ℚ)
    (h : ∃ c ∈ (goLong fails pos cp).2.1, callFails fails c = true) :
    (goLong fails pos cp).2.2 = true ∧ (goLong fails pos cp).1 = pos ∧
    ∃ pre s, (goLong fails pos cp).2.1 = pre ++ [GatewayCall.order s] ∧
      fails s = true ∧ ∀ c ∈ pre, callFails fails c = false := by
  by_cases hp : pos = some Side.short
  · subst hp
    cases hcs : fails OrderSide.close_short
    · cases hol : fails OrderSide.open_long
      · have he : goLong fails (some Side.short) cp =
            (some Side.long,
             GatewayCall.order OrderSide.close_short ::
               GatewayCall.order OrderSide.open_long ::
                 (setTP_SL Side.long cp).map GatewayCall.tpsl,
             false) := by
          simp [goLong, hcs, hol]
        rw [he] at h
        exfalso
        rcases h with ⟨c, hc, hf⟩
        simp only [List.mem_cons, List.mem_map] at hc
        rcases hc with rfl | rfl | ⟨r, _, rfl⟩
        · rw [callFails, hcs] at hf
          exact Bool.false_ne_true hf
        · rw [callFails, hol] at hf
          exact Bool.false_ne_true hf
        · rw [callFails] at hf
          exact Bool.false_ne_true hf
      · have he : goLong fails (some Side.short) cp =
            (some Side.short,
             [GatewayCall.order OrderSide.close_short,
              GatewayCall.order OrderSide.open_long], true) := by
          simp [goLong, hcs, hol]
        rw [he]
        refine ⟨rfl, rfl, [GatewayCall.order OrderSide.close_short],
          OrderSide.open_long, rfl, hol, ?_⟩
        intro c hc
        simp only [List.mem_singleton] at hc
        subst hc
        rw [callFails, hcs]
    · have he : goLong fails (some Side.short) cp =
          (some Side.short, [GatewayCall.order OrderSide.close_short], true) := by
        simp [goLong, hcs]
      rw [he]
      exact ⟨rfl, rfl, [], OrderSide.close_short, rfl, hcs, by simp⟩
  · cases hol : fails OrderSide.open_long
    · have he : goLong fails pos cp =
          (some Side.long,
           GatewayCall.order OrderSide.open_long ::
             (setTP_SL Side.long cp).map GatewayCall.tpsl, false) := by
        simp [goLong, hp, hol]
      rw [he] at h
      exfalso
      rcases h with ⟨c, hc, hf⟩
      simp only [List.mem_cons, List.mem_map] at hc
      rcases hc with rfl | ⟨r, _, rfl⟩
      · rw [callFails, hol] at hf
        exact Bool.false_ne_true hf
      · rw [callFails] at hf
        exact Bool.false_ne_true hf
    · have he : goLong fails pos cp =
          (pos, [GatewayCall.order OrderSide.open_long], true) := by
        simp [goLong, hp, hol]
      rw [he]
      exact ⟨rfl, rfl, [], OrderSide.open_long, rfl, hol, by simp⟩

/-- Symmetric to `goLong_fail` for the short branch. -/
theorem goShort_fail (fails : OrderSide → Bool) (pos : Option Side) (cp : ℚ)
    (h : ∃ c ∈ (goShort fails pos cp).2.1, callFails fails c = true) :
    (goShort fails pos cp).2.2 = true ∧ (goShort fails pos cp).1 = pos ∧
    ∃ pre s, (goShort fails pos cp).2.1 = pre ++ [GatewayCall.order s] ∧
      fails s = true ∧ ∀ c ∈ pre, callFails fails c = false := by
  by_cases hp : pos = some Side.long
  · subst hp
    cases hcl : fails OrderSide.close_long
    · cases hos : fails OrderSide.open_short
      · have he : goShort fails (some Side.long) cp =
            (some Side.short,
             GatewayCall.order OrderSide.close_long ::
               GatewayCall.order OrderSide.open_short ::
                 (setTP_SL Side.short cp).map GatewayCall.tpsl,
             false) := by
          simp [goShort, hcl, hos]
        rw [he] at h
        exfalso
        rcases h with ⟨c, hc, hf⟩
        simp only [List.mem_cons, List.mem_map] at hc
        rcases hc with rfl | rfl | ⟨r, _, rfl⟩
        · rw [callFails, hcl] at hf
          exact Bool.false_ne_true hf
        · rw [callFails, hos] at hf
          exact Bool.false_ne_true hf
        · rw [callFails] at hf
          exact Bool.false_ne_true hf
      · have he : goShort fails (some Side.long) cp =
            (some Side.long,
             [GatewayCall.order OrderSide.close_long,
              GatewayCall.order OrderSide.open_short], true) := by
          simp [goShort, hcl, hos]
        rw [he]
        refine ⟨rfl, rfl, [GatewayCall.order OrderSide.close_long],
          OrderSide.open_short, rfl, hos, ?_⟩
        intro c hc
        simp only [List.mem_singleton] at hc
        subst hc
        rw [callFails, hcl]
    · have he : goShort fails (some Side.long) cp =
          (some Side.long, [GatewayCall.order OrderSide.close_long], true) := by
        simp [goShort, hcl]
      rw [he]
      exact ⟨rfl, rfl, [], OrderSide.close_long, rfl, hcl, by simp⟩
  · cases hos : fails OrderSide.open_short
    · have he : goShort fails pos cp =
          (some Side.short,
           GatewayCall.order OrderSide.open_short ::
             (setTP_SL Side.short cp).map GatewayCall.tpsl, false) := by
        simp [goShort, hp, hos]
      rw [he] at h
      exfalso
      rcases h with ⟨c, hc, hf⟩
      simp only [List.mem_cons, List.mem_map] at hc
      rcases hc with rfl | ⟨r, _, rfl⟩
      · rw [callFails, hos] at hf
        exact Bool.false_ne_true hf
      · rw [callFails] at hf
        exact Bool.false_ne_true hf
    · have he : goShort fails pos cp =
          (pos, [GatewayCall.order OrderSide.open_short], true) := by
        simp [goShort, hp, hos]
      rw [he]
      exact ⟨rfl, rfl, [], OrderSide.open_short, rfl, hos, by simp⟩

/-- C10: on every tick, if any `placeOrder` call issued within the tick
fails, the error is caught by the tick handler (`caught = true`), the failing
call is the last call issued (no subsequent order call in the tick's
sequence), and the position at the end of the tick equals its value at the
start (the provisional write is skipped). -/
theorem C10_order_failure_contained (fails : OrderSide → Bool) (prices : List ℚ)
    (currentPrice : ℚ) (pos : Option Side)
    (h : ∃ c ∈ (tick fails prices currentPrice pos).calls,
      callFails fails c = true) :
    (tick fails prices currentPrice pos).caught = true ∧
    (tick fails prices currentPrice pos).position = pos ∧
    ∃ pre s, (tick fails prices currentPrice pos).calls =
        pre ++ [GatewayCall.order s] ∧
      fails s = true ∧ ∀ c ∈ pre, callFails fails c = false := by
  by_cases h1 : prices.length < LONG_MA_PERIOD ∨ currentPrice = 0
  · exfalso
    rcases h with ⟨c, hc, _⟩
    simp only [tick, if_pos h1] at hc
    simp at hc
  · by_cases h2 : MIN_CHANGE_PCT ≤ mathAbs (priceChangeOf prices currentPrice)
    · simp only [tick, if_neg h1, if_pos h2] at h ⊢
      by_cases hA : calculateSMA prices SHORT_MA_PERIOD >
          calculateSMA prices LONG_MA_PERIOD ∧ pos ≠ some Side.long
      · rw [if_pos hA] at h ⊢
        exact goLong_fail fails pos currentPrice h
      · rw [if_neg hA] at h ⊢
        by_cases hB : calculateSMA prices SHORT_MA_PERIOD <
            calculateSMA prices LONG_MA_PERIOD ∧ pos ≠ some Side.short
        · rw [if_pos hB] at h ⊢
          exact goShort_fail fails pos currentPrice h
        · exfalso
          rw [if_neg hB] at h
          rcases h with ⟨c, hc, _⟩
          simp at hc
    · exfalso
      simp only [tick, if_neg h1, if_neg h2] at h
      rcases h with ⟨c, hc, _⟩
      simp at hc

/-- Witness for C10: the cross-up-from-short scenario of C4 with the
open-long order set to fail: the tick issues close-short then the failing
open-long, no TP/SL request, catches the error and leaves the position
short. -/
theorem C10_order_failure_contained_witness :
    (∃ c ∈ (tick (fun s => s == OrderSide.open_long)
        (List.replicate 199 (100 : ℚ) ++ [120]) 101 (some Side.short)).calls,
      callFails (fun s => s == OrderSide.open_long) c = true) ∧
    ((tick (fun s => s == OrderSide.open_long)
        (List.replicate 199 (100 : ℚ) ++ [120]) 101 (some Side.short)).caught =
        true ∧
      (tick (fun s => s == OrderSide.open_long)
        (List.replicate 199 (100 : ℚ) ++ [120]) 101
          (some Side.short)).position = some Side.short ∧
      ∃ pre s, (tick (fun s => s == OrderSide.open_long)
          (List.replicate 199 (100 : ℚ) ++ [120]) 101
            (some Side.short)).calls = pre ++ [GatewayCall.order s] ∧
        (fun s => s == OrderSide.open_long) s = true ∧
        ∀ c ∈ pre, callFails (fun s => s == OrderSide.open_long) c = false) :=
  ⟨by with_unfolding_all decide,
   C10_order_failure_contained (fun s => s == OrderSide.open_long) _ 101
     (some Side.short) (by with_unfolding_all decide)⟩

end MakeMeRich

